import Mathlib

/-!
Verification of the krest configuration server (src/examples/krest.py).

The file shallowly embeds the request-handling core of krest: the JSON
value model, Python dict operations as association lists that keep
insertion order, the MongoDB-backed store as a map from collection name
to a list of documents in storage order, and each handler of the `Krest`
class as a pure function from store, master password and request to a
result paired with the list of storage queries it issued.
-/

/-- JSON-compatible values, the payloads of stored configuration
documents and of rendered response bodies. -/
inductive JVal where
  | str (s : String)
  | num (n : Int)
  | arr (elems : List JVal)
  | obj (fields : List (String × JVal))

/-- A Python dict with string keys, as an association list in insertion
order (MongoDB documents and the shaped response objects). -/
abbrev Record := List (String × JVal)

/-- `d.get(k)` / `d[k]` lookup: the value at the first entry whose key
matches, if any. -/
def dlookup : Record → String → Option JVal
  | [], _ => none
  | (k, v) :: rest, key => if k = key then some v else dlookup rest key

/-- `d.pop(k, None)`: remove the entry with key `k`, keeping the order of
the remaining entries (the keys of a Python dict are unique, so at most
one entry matches). -/
def dpop : Record → String → Record
  | [], _ => []
  | (k1, v1) :: rest, k =>
      if k1 = k then dpop rest k else (k1, v1) :: dpop rest k

/-- `d[k] = v` (also `d.update(k=v)`): replace the value at an existing
key in place, or append a new entry at the end. -/
def dset : Record → String → JVal → Record
  | [], k, v => [(k, v)]
  | (k1, v1) :: rest, k, v =>
      if k1 = k then (k, v) :: rest else (k1, v1) :: dset rest k v

/-- `d.copy()`: a fresh dict holding the same entries. On the value level
the copy is the identity; the heap model below captures that it is a new
object. -/
def dcopy (d : Record) : Record := d

/-- The MongoDB backing store: each collection name denotes a list of
documents in storage-returned order. `collection.find(\x7b\x7d)` returns the
whole list; collections never queried before are empty. -/
structure Store where
  partitions : String → List Record

/-- An incoming HTTP request, reduced to the part the handlers read: the
optional `key` query parameter (`request.GET.get('key', None)`). -/
structure Request where
  key : Option String

/-- A storage query observable at the pymongo boundary. -/
inductive Query where
  | find (env : String)
  | findOne (env : String) (app : String)
deriving DecidableEq, Repr

/-- The outcome of one handler invocation: a returned JSON body, a bottle
`abort` with status code and text, or an uncaught Python `KeyError`. -/
inductive HResult where
  | body (v : JVal)
  | httpError (code : Nat) (text : String)
  | keyError

/-- `error404` in krest.py: renders the fixed 404 JSON body. Registered
with bottle as the 404 handler; calling it directly merely returns this
value. -/
def error404 (msg : Option String) : JVal :=
  .obj [("error", .num 404), ("text", .str (msg.getD "Nothing here"))]

/-- `error401` in krest.py: renders the fixed 401 JSON body. -/
def error401 : JVal :=
  .obj [("error", .num 401), ("text", .str "Unauthorized")]

/-- `check_auth` in krest.py: runs the wrapped handler only when the
request-supplied `key` equals the master password; otherwise returns the
`error401` body without invoking the handler, so no query is issued. -/
def check_auth (secret : String) (req : Request)
    (fxn : Unit → HResult × List Query) : HResult × List Query :=
  if req.key = some secret then fxn () else (.body error401, [])

/-- The collections configured in `Krest.__init__`: the permitted
environments. -/
def permittedEnvironments : List String := ["dev", "test", "prod"]

/-- `Krest.get_collection`. The membership test renders the 404 body via
`error404('invalid environment')`, but that call neither raises nor
returns from `get_collection` (the bottle error decorator leaves the
function a plain function), so its result is discarded and control
continues to `self.connection[collection]` on both paths. -/
def get_collection (collections : List String) (name : String) : String :=
  if collections ≠ [] ∧ name ∉ collections then
    let _ := error404 (some "invalid environment")
    name
  else
    name

/-- The projection applied to each document by `Krest.get_list`:
`x.get('app', x['_id'])`. Python evaluates the default argument
`x['_id']` before calling `get`, so a document without `_id` raises
`KeyError` (result `none`) even when it has an `app` field. -/
def appOrId (x : Record) : Option JVal :=
  match dlookup x "_id" with
  | none => none
  | some idv => some ((dlookup x "app").getD idv)

/-- The list comprehension of `Krest.get_list`, applied to the documents
in storage order; a `KeyError` on any document aborts the whole
comprehension (result `none`). -/
def projectAll : List Record → Option (List JVal)
  | [] => some []
  | x :: rest =>
      match appOrId x, projectAll rest with
      | some v, some vs => some (v :: vs)
      | _, _ => none

/-- `Krest.get_list`: auth gate, then resolve the collection, run
`find(\x7b\x7d)` and project every document through `appOrId`, returning the
JSON array in storage order. A `KeyError` in the comprehension aborts the
response after the query was issued. -/
def get_list (store : Store) (secret : String) (req : Request)
    (collection : String) : HResult × List Query :=
  check_auth secret req (fun _ =>
    let env_name := collection
    let c := get_collection permittedEnvironments env_name
    let docs := (store.partitions c)
    match projectAll docs with
    | some apps => (.body (.arr apps), [.find c])
    | none => (.keyError, [.find c]))

/-- `collection.find_one(\x7b"app": app_name\x7d)`: the first document of the
partition whose `app` field equals the requested application name. -/
def find_one (docs : List Record) (app_name : String) : Option Record :=
  docs.find? (fun r =>
    match dlookup r "app" with
    | some (.str s) => s == app_name
    | _ => false)

/-- The document shaping inlined in `Krest.get_detail`:
`data = data.copy(); data.pop('_id', None); data.update(env=env_name)`. -/
def shape (record : Record) (env_name : String) : Record :=
  dset (dpop (dcopy record) "_id") "env" (.str env_name)

/-- `Krest.get_detail`: auth gate, resolve the collection, fetch the
first matching document (`or \x7b\x7d` when absent), shape it, and return it
as a JSON object; the empty-dict branch returns an empty object. -/
def get_detail (store : Store) (secret : String) (req : Request)
    (collection : String) (pk : String) : HResult × List Query :=
  check_auth secret req (fun _ =>
    let app_name := pk
    let env_name := collection
    let c := get_collection permittedEnvironments env_name
    let data0 := (find_one (store.partitions c) app_name).getD []
    let data := shape data0 env_name
    (if data.isEmpty then .body (.obj []) else .body (.obj data),
     [.findOne c app_name]))

/-- `ReadOnly.patch_detail`: `abort(code=500, text='not implemented')`.
It reads neither the request key nor the store, so it cannot consult the
secret and issues no query. -/
def patch_detail (collection : String) (pk : String) : HResult × List Query :=
  let _ := collection
  let _ := pk
  (.httpError 500 "not implemented", [])

/-- `ReadOnly.put_detail`, an alias of `patch_detail` in the source
(`put_detail = delete_detail = post_list = patch_detail`). -/
def put_detail (collection : String) (pk : String) : HResult × List Query :=
  patch_detail collection pk

/-- `ReadOnly.delete_detail`, an alias of `patch_detail` in the source. -/
def delete_detail (collection : String) (pk : String) : HResult × List Query :=
  patch_detail collection pk

/-- `ReadOnly.post_list`, an alias of `patch_detail` in the source; the
list route supplies no `pk` argument. -/
def post_list (collection : String) : HResult × List Query :=
  patch_detail collection ""

/-- The HTTP methods the surface routes. -/
inductive Method where
  | GET
  | PUT
  | POST
  | PATCH
  | DELETE
deriving DecidableEq, Repr

/-- The two logical routes of the surface. -/
inductive Route where
  | list (env : String)
  | detail (env : String) (app : String)
deriving DecidableEq, Repr

/-- Modelled from the spec: the routing of the kule base class is not
under src/ (only the `ReadOnly` and `Krest` overrides are). Per the spec,
a GET on the list or detail route reaches `get_list` or `get_detail`,
and every PUT, POST, PATCH or DELETE on either route is dispatched to
the overridden write handlers. -/
def dispatch (store : Store) (secret : String) (req : Request) :
    Route → Method → HResult × List Query
  | .list env, .GET => get_list store secret req env
  | .list env, .POST => post_list env
  | .list env, .PUT => post_list env
  | .list env, .PATCH => post_list env
  | .list env, .DELETE => post_list env
  | .detail env app, .GET => get_detail store secret req env app
  | .detail env app, .PUT => put_detail env app
  | .detail env app, .POST => patch_detail env app
  | .detail env app, .PATCH => patch_detail env app
  | .detail env app, .DELETE => delete_detail env app

mutual

/-- Deterministic JSON serialization of a value, standing for the bytes
`jsonify` puts on the wire. -/
def render : JVal → String
  | .str s => "\"" ++ s ++ "\""
  | .num n => toString n
  | .arr elems => "[" ++ renderElems elems ++ "]"
  | .obj fields => "\x7b" ++ renderFields fields ++ "\x7d"

/-- Serialization of the elements of a JSON array. -/
def renderElems : List JVal → String
  | [] => ""
  | [x] => render x
  | x :: y :: rest => render x ++ ", " ++ renderElems (y :: rest)

/-- Serialization of the fields of a JSON object. -/
def renderFields : List (String × JVal) → String
  | [] => ""
  | [(k, v)] => "\"" ++ k ++ "\": " ++ render v
  | (k, v) :: f :: rest =>
      "\"" ++ k ++ "\": " ++ render v ++ ", " ++ renderFields (f :: rest)

end

/-- The bytes a handler outcome puts on the wire. -/
def renderResult : HResult → String
  | .body v => render v
  | .httpError code text => toString code ++ " " ++ text
  | .keyError => "500 Internal Server Error"

/-- A heap of Python dict objects: cell contents indexed by reference,
with `next` the first unallocated reference. -/
structure Heap where
  cells : Nat → Record
  next : Nat

/-- Allocate a fresh dict object holding `v`. -/
def heapAlloc (h : Heap) (v : Record) : Heap × Nat :=
  (⟨fun i => if i = h.next then v else h.cells i, h.next + 1⟩, h.next)

/-- Mutate the dict object at reference `r` in place. -/
def heapWrite (h : Heap) (r : Nat) (v : Record) : Heap :=
  ⟨fun i => if i = r then v else h.cells i, h.next⟩

/-- The imperative tail of `Krest.get_detail` at the object level, with
`r0` the reference of the dict returned by storage:
`data = data.copy()` allocates a fresh cell, then `data.pop('_id', None)`
and `data.update(env=env_name)` mutate only that fresh cell. Returns the
final heap and the reference the response is rendered from. -/
def get_detail_steps (h : Heap) (r0 : Nat) (env_name : String) :
    Heap × Nat :=
  let alloc := heapAlloc h (dcopy (h.cells r0))
  let h1 := alloc.1
  let r1 := alloc.2
  let h2 := heapWrite h1 r1 (dpop (h1.cells r1) "_id")
  let h3 := heapWrite h2 r1 (dset (h2.cells r1) "env" (.str env_name))
  (h3, r1)

/-- A store whose only nonempty partition is the unpermitted collection
name "staging". -/
def c1store : Store :=
  ⟨fun e => if e = "staging" then [[("_id", .str "1"), ("app", .str "apex")]]
    else []⟩

/-- A store with every partition empty. -/
def c2store : Store := ⟨fun _ => []⟩

/-- A store whose "dev" partition holds one document with the fields
`_id`, `app`, `x` and `y`. -/
def c3store : Store :=
  ⟨fun e => if e = "dev" then
      [[("_id", .str "id1"), ("app", .str "a"), ("x", .num 1),
        ("y", .num 2)]]
    else []⟩

/-- A store with every partition empty. -/
def c4store : Store := ⟨fun _ => []⟩

/-- A store whose "dev" partition holds one document with an `app` field
and one document without it. -/
def c5store : Store :=
  ⟨fun e => if e = "dev" then
      [[("_id", .str "1"), ("app", .str "apex")], [("_id", .str "2")]]
    else []⟩

/-- A store with every partition empty. -/
def c6store : Store := ⟨fun _ => []⟩

/-- A store with every partition empty. -/
def c8store : Store := ⟨fun _ => []⟩

/-- A store whose "dev" partition holds one document without an `app`
field. -/
def c9store : Store :=
  ⟨fun e => if e = "dev" then [[("_id", .str "1")]] else []⟩

/-- A one-cell heap holding a fetched document. -/
def c10heap : Heap := ⟨fun _ => [("_id", .str "i"), ("color", .num 7)], 1⟩

/- ### Helper lemmas shared by the claim theorems -/

/-- `get_collection` returns the collection handle on both paths: the
404 rendering of the membership test is discarded. -/
theorem get_collection_eq (collections : List String) (name : String) :
    get_collection collections name = name := by
  unfold get_collection
  split <;> rfl

/-- Looking up the key just set by `dset` yields the new value. -/
theorem dlookup_dset_self (d : Record) (k : String) (v : JVal) :
    dlookup (dset d k v) k = some v := by
  induction d with
  | nil => simp [dset, dlookup]
  | cons p rest ih =>
    obtain ⟨k1, v1⟩ := p
    by_cases hpk : k1 = k
    · simp [dset, hpk, dlookup]
    · simp [dset, hpk, dlookup, ih]

/-- `dset` leaves the value at every other key unchanged. -/
theorem dlookup_dset_ne (d : Record) (k k2 : String) (v : JVal)
    (h : k2 ≠ k) :
    dlookup (dset d k v) k2 = dlookup d k2 := by
  induction d with
  | nil => simp [dset, dlookup, Ne.symm h]
  | cons p rest ih =>
    obtain ⟨k1, v1⟩ := p
    by_cases hpk : k1 = k
    · subst hpk
      simp [dset, dlookup, Ne.symm h]
    · simp [dset, hpk, dlookup, ih]

/-- The popped key is absent after `dpop`. -/
theorem dlookup_dpop_self (d : Record) (k : String) :
    dlookup (dpop d k) k = none := by
  induction d with
  | nil => rfl
  | cons p rest ih =>
    obtain ⟨k1, v1⟩ := p
    by_cases hpk : k1 = k
    · simp [dpop, hpk, ih]
    · simp [dpop, hpk, dlookup, ih]

/-- `dpop` leaves the value at every other key unchanged. -/
theorem dlookup_dpop_ne (d : Record) (k k2 : String) (h : k2 ≠ k) :
    dlookup (dpop d k) k2 = dlookup d k2 := by
  induction d with
  | nil => rfl
  | cons p rest ih =>
    obtain ⟨k1, v1⟩ := p
    by_cases hpk : k1 = k
    · subst hpk
      simp [dpop, dlookup, Ne.symm h, ih]
    · simp [dpop, hpk, dlookup, ih]

/-- When every document carries `_id`, the list comprehension succeeds
and returns, in order, the `app` value of each document, falling back to
its `_id`. -/
theorem projectAll_of_id (docs : List Record)
    (h : ∀ r ∈ docs, (dlookup r "_id").isSome) :
    projectAll docs = some (docs.map fun r =>
      (dlookup r "app").getD ((dlookup r "_id").getD (.str ""))) := by
  induction docs with
  | nil => rfl
  | cons r rest ih =>
    obtain ⟨idv, hidv⟩ :=
      Option.isSome_iff_exists.mp (h r (List.mem_cons_self r rest))
    have hrest := ih (fun x hx => h x (List.mem_cons_of_mem r hx))
    simp [projectAll, appOrId, hidv, hrest]

/-- When no document of the partition matches the requested application
name, `find_one` returns `none`. -/
theorem find_one_eq_none (docs : List Record) (app : String)
    (h : ∀ r ∈ docs, dlookup r "app" ≠ some (.str app)) :
    find_one docs app = none := by
  rw [find_one, List.find?_eq_none]
  intro r hr
  cases hdl : dlookup r "app" with
  | none => simp
  | some v =>
    cases v with
    | str s =>
      intro hs
      have hsa : s = app := by simpa using hs
      exact h r hr (by rw [hdl, hsa])
    | num n => simp
    | arr l => simp
    | obj l => simp

/-- Evaluation of `get_list` under a correct key when every document of
the partition carries `_id`. -/
theorem get_list_eval (store : Store) (secret : String) (req : Request)
    (env : String) (hkey : req.key = some secret)
    (hid : ∀ r ∈ store.partitions env, (dlookup r "_id").isSome) :
    get_list store secret req env =
      (.body (.arr ((store.partitions env).map fun r =>
          (dlookup r "app").getD ((dlookup r "_id").getD (.str "")))),
       [.find env]) := by
  simp [get_list, check_auth, hkey, get_collection_eq,
    projectAll_of_id _ hid]

/- ### Claim theorems -/

/-- C1: the claim says a GET on an environment outside the permitted set
with the correct secret returns the fixed 404 body and issues no storage
query. The code violates this: `get_collection` renders the 404 body but
discards it, so for the unpermitted collection name "staging" the list
handler still runs `find` against storage and returns the projected app
list, not the 404 body. -/
theorem c1_unknown_env_queries_storage :
    get_list c1store "s" ⟨some "s"⟩ "staging" =
      (.body (.arr [.str "apex"]), [.find "staging"]) ∧
    "staging" ∉ permittedEnvironments ∧
    (JVal.arr [.str "apex"]) ≠ error404 (some "invalid environment") :=
  ⟨rfl, by decide, fun h => JVal.noConfusion h⟩

/-- C2 (counterexample): with the "dev" partition empty, `get_detail`
with the correct secret returns the body holding only the injected `env`
field, which is not the empty object the claim requires. -/
theorem c2_counterexample :
    (get_detail c2store "s" ⟨some "s"⟩ "dev" "myapp").1 =
      .body (.obj [("env", .str "dev")]) ∧
    JVal.obj [("env", .str "dev")] ≠ .obj [] := by
  refine ⟨rfl, ?_⟩
  intro h
  injection h with h1
  cases h1

/-- C2 (amended): for a permitted environment and an application name
matched by no document of the partition, `get_detail` with the correct
secret returns the object holding exactly the injected `env` field — a
200-style body, neither a 404 nor the empty object: `data.update` runs
before the emptiness test, so the empty-object branch is unreachable. -/
theorem c2_missing_app_env_object (store : Store) (secret : String)
    (req : Request) (env app : String)
    (henv : env ∈ permittedEnvironments) (hkey : req.key = some secret)
    (habs : ∀ r ∈ store.partitions env, dlookup r "app" ≠ some (.str app)) :
    (get_detail store secret req env app).1 =
      .body (.obj [("env", .str env)]) := by
  simp [get_detail, check_auth, hkey, get_collection_eq,
    find_one_eq_none _ _ habs, shape, dcopy, dpop, dset]

/-- C2 (witness of the amended claim at a concrete input). -/
theorem c2_witness :
    (get_detail c2store "s" ⟨some "s"⟩ "dev" "myapp").1 =
      .body (.obj [("env", .str "dev")]) :=
  c2_missing_app_env_object c2store "s" ⟨some "s"⟩ "dev" "myapp"
    (by decide) rfl (by simp [c2store])

/-- C3 (counterexample): for the stored document with fields `_id`,
`app`, `x`, `y`, the detail body keeps the `app` field, so the claimed
output without `app` is wrong. -/
theorem c3_counterexample :
    (get_detail c3store "s" ⟨some "s"⟩ "dev" "a").1 =
      .body (.obj [("app", .str "a"), ("x", .num 1), ("y", .num 2),
        ("env", .str "dev")]) ∧
    dlookup [("app", .str "a"), ("x", .num 1), ("y", .num 2),
      ("env", .str "dev")] "app" = some (.str "a") :=
  ⟨rfl, rfl⟩

/-- C3 (amended): for a permitted environment whose partition holds the
document with fields `_id`, `app`, `x`, `y`, the detail body with the
correct secret is the object with fields `app`, `x`, `y`, `env`: the
internal identifier is stripped and `env` injected, but the `app` field
is kept. -/
theorem c3_detail_keeps_app (store : Store) (secret : String)
    (req : Request) (env : String) (idv : JVal) (a : String)
    (henv : env ∈ permittedEnvironments) (hkey : req.key = some secret)
    (hpart : store.partitions env =
      [[("_id", idv), ("app", .str a), ("x", .num 1), ("y", .num 2)]]) :
    (get_detail store secret req env a).1 =
      .body (.obj [("app", .str a), ("x", .num 1), ("y", .num 2),
        ("env", .str env)]) := by
  simp [get_detail, check_auth, hkey, get_collection_eq, hpart, find_one,
    dlookup, shape, dcopy, dpop, dset]

/-- C3 (witness of the amended claim at a concrete input). -/
theorem c3_witness :
    (get_detail c3store "s" ⟨some "s"⟩ "dev" "a").1 =
      .body (.obj [("app", .str "a"), ("x", .num 1), ("y", .num 2),
        ("env", .str "dev")]) :=
  c3_detail_keeps_app c3store "s" ⟨some "s"⟩ "dev" (.str "id1") "a"
    (by decide) rfl rfl

/-- C4: whenever the `key` query parameter is absent or differs from the
master password, both read handlers return the fixed 401 JSON body and
issue no storage query: the auth gate short-circuits before the wrapped
handler runs. -/
theorem c4_auth_gate (store : Store) (secret : String) (req : Request)
    (env app : String) (hkey : req.key ≠ some secret) :
    get_list store secret req env = (.body error401, []) ∧
    get_detail store secret req env app = (.body error401, []) ∧
    error401 = .obj [("error", .num 401), ("text", .str "Unauthorized")] := by
  refine ⟨?_, ?_, rfl⟩ <;> simp [get_list, get_detail, check_auth, hkey]

/-- C4 (witness at a concrete input with the key absent). -/
theorem c4_witness :
    get_list c4store "s" ⟨none⟩ "dev" = (.body error401, []) ∧
    get_detail c4store "s" ⟨none⟩ "dev" "a" = (.body error401, []) ∧
    error401 = .obj [("error", .num 401), ("text", .str "Unauthorized")] :=
  c4_auth_gate c4store "s" ⟨none⟩ "dev" "a" (fun h => Option.noConfusion h)

/-- C5: for a permitted environment and a request with the correct
secret, under the storage invariant that every document carries `_id`,
`get_list` returns exactly the storage-ordered projection of the
partition to the `app` field, substituting the `_id` value for any
document lacking `app`, and issues the single `find` query. -/
theorem c5_list_projection (store : Store) (secret : String)
    (req : Request) (env : String) (henv : env ∈ permittedEnvironments)
    (hkey : req.key = some secret)
    (hid : ∀ r ∈ store.partitions env, (dlookup r "_id").isSome) :
    get_list store secret req env =
      (.body (.arr ((store.partitions env).map fun r =>
          (dlookup r "app").getD ((dlookup r "_id").getD (.str "")))),
       [.find env]) :=
  get_list_eval store secret req env hkey hid

/-- C5 (witness at a concrete store: one document with `app`, one
without, projected in storage order). -/
theorem c5_witness :
    get_list c5store "s" ⟨some "s"⟩ "dev" =
      (.body (.arr [.str "apex", .str "2"]), [.find "dev"]) :=
  c5_list_projection c5store "s" ⟨some "s"⟩ "dev" (by decide) rfl
    (by decide)

/-- C6: every PUT, POST, PATCH or DELETE on the list or detail route is
answered by the fixed abort with code 500 and text "not implemented",
for every store, secret and request (so for every credential value), and
issues no storage query. The routing of the kule base class is modelled
from the spec; the overridden handlers are from src. -/
theorem c6_write_methods (store : Store) (secret : String)
    (req : Request) (route : Route) (m : Method) (hm : m ≠ .GET) :
    dispatch store secret req route m =
      (.httpError 500 "not implemented", []) := by
  cases route <;> cases m <;> first | exact absurd rfl hm | rfl

/-- C6 (witness at a concrete input: POST on the list route with a wrong
key). -/
theorem c6_witness :
    dispatch c6store "s" ⟨some "wrong"⟩ (.list "dev") .POST =
      (.httpError 500 "not implemented", []) :=
  c6_write_methods c6store "s" ⟨some "wrong"⟩ (.list "dev") .POST
    (by decide)

/-- C7: the shaping of a fetched document preserves the value at every
key other than `_id` and `env`, removes `_id`, and maps `env` to the
resolved environment name, overwriting any stored `env` field. -/
theorem c7_shape_frame (record : Record) (env k : String)
    (hk1 : k ≠ "_id") (hk2 : k ≠ "env") :
    dlookup (shape record env) k = dlookup record k ∧
    dlookup (shape record env) "_id" = none ∧
    dlookup (shape record env) "env" = some (.str env) := by
  refine ⟨?_, ?_, ?_⟩
  · simp only [shape, dcopy]
    rw [dlookup_dset_ne _ _ _ _ hk2, dlookup_dpop_ne _ _ _ hk1]
  · simp only [shape, dcopy]
    rw [dlookup_dset_ne _ _ _ _ (by decide), dlookup_dpop_self]
  · simp only [shape, dcopy]
    rw [dlookup_dset_self]

/-- C7 (witness at a concrete document carrying `_id` and a data
field). -/
theorem c7_witness :
    dlookup (shape [("_id", .str "i"), ("color", .num 3)] "dev") "color" =
      dlookup [("_id", .str "i"), ("color", .num 3)] "color" ∧
    dlookup (shape [("_id", .str "i"), ("color", .num 3)] "dev") "_id" =
      none ∧
    dlookup (shape [("_id", .str "i"), ("color", .num 3)] "dev") "env" =
      some (.str "dev") :=
  c7_shape_frame [("_id", .str "i"), ("color", .num 3)] "dev" "color"
    (by decide) (by decide)

/-- C8: the two read handlers are deterministic in the store, the master
password and the request: identical GET requests with the correct secret
against the same store render byte-identical response bodies. -/
theorem c8_get_deterministic (store1 store2 : Store)
    (secret1 secret2 : String) (req1 req2 : Request) (env app : String)
    (hs : store1 = store2) (hsec : secret1 = secret2) (hreq : req1 = req2)
    (hkey : req1.key = some secret1) :
    renderResult (get_list store1 secret1 req1 env).1 =
      renderResult (get_list store2 secret2 req2 env).1 ∧
    renderResult (get_detail store1 secret1 req1 env app).1 =
      renderResult (get_detail store2 secret2 req2 env app).1 := by
  subst hs
  subst hsec
  subst hreq
  exact ⟨rfl, rfl⟩

/-- C8 (witness at a concrete repeated request). -/
theorem c8_witness :
    renderResult (get_list c8store "s" ⟨some "s"⟩ "dev").1 =
      renderResult (get_list c8store "s" ⟨some "s"⟩ "dev").1 ∧
    renderResult (get_detail c8store "s" ⟨some "s"⟩ "dev" "a").1 =
      renderResult (get_detail c8store "s" ⟨some "s"⟩ "dev" "a").1 :=
  c8_get_deterministic c8store c8store "s" "s" ⟨some "s"⟩ ⟨some "s"⟩
    "dev" "a" rfl rfl rfl rfl

/-- C9: when every document of the partition carries `_id`, `get_list`
with the correct secret never ends in the `KeyError` outcome, and a
document lacking both `app` and `_id` makes the projection itself
fail. -/
theorem c9_projection_totality (store : Store) (secret : String)
    (req : Request) (env : String) (r : Record)
    (hkey : req.key = some secret)
    (hid : ∀ x ∈ store.partitions env, (dlookup x "_id").isSome)
    (happ : dlookup r "app" = none) (hid2 : dlookup r "_id" = none) :
    (get_list store secret req env).1 ≠ .keyError ∧ appOrId r = none := by
  constructor
  · rw [get_list_eval store secret req env hkey hid]
    exact fun hcontra => HResult.noConfusion hcontra
  · simp [appOrId, hid2]

/-- C9 (witness: a store whose document carries `_id`, and the empty
record as the document lacking both keys). -/
theorem c9_witness :
    (get_list c9store "s" ⟨some "s"⟩ "dev").1 ≠ .keyError ∧
    appOrId [] = none :=
  c9_projection_totality c9store "s" ⟨some "s"⟩ "dev" [] rfl (by decide)
    rfl rfl

/-- C10: in the object-level model of the `get_detail` tail, the fetched
document is unchanged by the request: the copy allocated by
`data.copy()` receives the pop of `_id` and the `env` update, while the
cell fetched from storage keeps its contents, and the rendered cell
holds exactly the shaped document. -/
theorem c10_no_mutation (h : Heap) (r0 : Nat) (env : String)
    (hr : r0 < h.next) :
    (get_detail_steps h r0 env).1.cells r0 = h.cells r0 ∧
    (get_detail_steps h r0 env).1.cells (get_detail_steps h r0 env).2 =
      shape (h.cells r0) env := by
  have hne : r0 ≠ h.next := Nat.ne_of_lt hr
  constructor
  · simp [get_detail_steps, heapAlloc, heapWrite, hne]
  · simp [get_detail_steps, heapAlloc, heapWrite, shape, dcopy]

/-- C10 (witness at a concrete one-cell heap). -/
theorem c10_witness :
    (get_detail_steps c10heap 0 "dev").1.cells 0 = c10heap.cells 0 ∧
    (get_detail_steps c10heap 0 "dev").1.cells
        (get_detail_steps c10heap 0 "dev").2 =
      shape (c10heap.cells 0) "dev" :=
  c10_no_mutation c10heap 0 "dev" (by decide)
